import Mathlib

/-!
Verification of the desktop-height-controller core pipeline: a shallow
embedding of the multi-zone spatial consensus filter, the moving-average
temporal filter, the height-calculation model, the system configuration
setters and the movement state machine, together with theorems settling
the specification's claims against these definitions.

Machine integers are modelled as `Nat`/`Int` with explicit wrapping
(`% 2^16`, `% 2^32`, signed 16-bit wrap) exactly where the C++ source's
fixed-width arithmetic can wrap.
-/

namespace Desk

/-! ## Signed/unsigned fixed-width helpers -/

/-- Conversion of an `int`-valued expression to `int16_t` (two's-complement
wrap), as the ESP32 target does. -/
def wrap16s (x : ℤ) : ℤ := (x + 32768) % 65536 - 32768

/-- Reading a `uint16_t` value (a natural below 2^16) as `int16_t`:
the cast `(int16_t)u` reinterprets the bit pattern. -/
def toInt16 (n : ℕ) : ℤ := wrap16s (n : ℤ)

/-- `unsigned long` (32-bit) subtraction `now - start`, as used for
`millis()` arithmetic. -/
def wrap32sub (now start : ℕ) : ℕ :=
  ((((now : ℤ) - (start : ℤ)) % 4294967296)).toNat

/-! ## MovingAverageFilter (src/utils/MovingAverageFilter.cpp)

The circular `uint16_t* buffer_` is modelled as a `List ℕ` of length
`windowSize_`; `head_`, `sampleCount_` as in the source. -/

/-- `MovingAverageFilter::clampWindowSize` (MIN 3, MAX 10). -/
def clampWindowSize (size : ℕ) : ℕ :=
  if size < 3 then 3 else if size > 10 then 10 else size

structure Filter where
  windowSize : ℕ
  head : ℕ
  sampleCount : ℕ
  buffer : List ℕ
  deriving Repr, DecidableEq

/-- The constructor `MovingAverageFilter(windowSize)`: clamp the window,
zero-fill the buffer. -/
def mkFilter (windowSize : ℕ) : Filter :=
  let ws := clampWindowSize windowSize
  ⟨ws, 0, 0, List.replicate ws 0⟩

/-- `MovingAverageFilter::addSample`. -/
def addSample (f : Filter) (sample : ℕ) : Filter :=
  { f with
    buffer := f.buffer.set f.head sample
    head := (f.head + 1) % f.windowSize
    sampleCount :=
      if f.sampleCount < f.windowSize then f.sampleCount + 1 else f.sampleCount }

/-- `MovingAverageFilter::getAverage`: `uint32_t` accumulator over the first
`sampleCount_` slots, quotient cast back to `uint16_t`. -/
def getAverage (f : Filter) : ℕ :=
  if f.sampleCount = 0 then 0
  else (((f.buffer.take f.sampleCount).sum % 4294967296) / f.sampleCount) % 65536

/-- Feeding a whole sample stream into a freshly constructed filter. -/
def feedAll (windowSize : ℕ) (samples : List ℕ) : Filter :=
  samples.foldl addSample (mkFilter windowSize)

/-! ## Multi-zone consensus (src/HeightController.cpp) -/

/-- One zone of the `VL53L5CX_ResultsData` frame: `target_status` is a
`uint8_t`, `distance_mm` an `int16_t`. -/
structure Zone where
  status : ℕ
  distSigned : ℤ
  deriving Repr, DecidableEq

/-- `(distance_signed > 0) ? (uint16_t)distance_signed : 0` — positive
`int16_t` values fit in `uint16_t` unchanged. -/
def zoneDist (z : Zone) : ℕ := if z.distSigned > 0 then z.distSigned.toNat else 0

/-- `HeightController::isZoneValid` — whitelist {5,6,9}, range
[SENSOR_MIN_VALID_MM, SENSOR_MAX_RANGE_MM] = [10, 4000]. -/
def isZoneValid (status dist : ℕ) : Bool :=
  if status = 0 ∨ status = 255 then false
  else if status ≠ 5 ∧ status ≠ 6 ∧ status ≠ 9 then false
  else if dist < 10 ∨ dist > 4000 then false
  else true

/-- Step 1 of `computeMultiZoneConsensus`: the distances of the zones that
pass validation, in zone order. -/
def validDistances (frame : List Zone) : List ℕ :=
  (frame.map fun z => (z.status, zoneDist z)).filter
    (fun p => isZoneValid p.1 p.2) |>.map Prod.snd

/-- The inner while-loop of the in-place insertion sort in
`HeightController::computeMedian`: insert `key` into the already sorted
prefix, shifting the elements greater than `key` one slot right. -/
def insertAsc (key : ℕ) : List ℕ → List ℕ
  | [] => [key]
  | x :: xs => if key < x then key :: x :: xs else x :: insertAsc key xs

/-- The outer for-loop of the insertion sort: the elements are inserted
left to right into the sorted prefix. -/
def sortAsc (l : List ℕ) : List ℕ := l.foldl (fun acc v => insertAsc v acc) []

/-- `HeightController::computeMedian`: 0 for an empty array, the single
element for count 1, else sort and take index `count/2 - 1` (even count,
lower middle) or `count/2` (odd count). -/
def computeMedian (values : List ℕ) : ℕ :=
  match values with
  | [] => 0
  | [v] => v
  | _ =>
    let s := sortAsc values
    if values.length % 2 = 0 then s.getD (values.length / 2 - 1) 0
    else s.getD (values.length / 2) 0

/-- Absolute deviation from the median as computed branch-wise on
`uint16_t` in `HeightController::filterOutliers`. -/
def deviation (v median : ℕ) : ℕ := if v ≥ median then v - median else median - v

/-- `HeightController::filterOutliers`: keep a zone iff its deviation from
the median is at most `MULTI_ZONE_OUTLIER_THRESHOLD_MM` (30, inclusive). -/
def keptList (values : List ℕ) (median : ℕ) : List ℕ :=
  values.filter (fun v => deviation v median ≤ 30)

/-- `HeightController::computeMean`: `uint32_t` accumulator, truncating
division, cast to `uint16_t`. -/
def computeMean (values : List ℕ) : ℕ :=
  if values.length = 0 then 0
  else ((values.sum % 4294967296) / values.length) % 65536

structure ConsensusResult where
  consensus_distance_mm : ℕ
  valid_zone_count : ℕ
  outlier_count : ℕ
  is_reliable : Bool
  deriving Repr, DecidableEq

/-- `HeightController::computeMultiZoneConsensus`: validate the zones,
gate on `MULTI_ZONE_MIN_VALID_ZONES` (4), take the median, filter
outliers, and average the survivors.  When every valid zone is rejected
the function returns with `consensus_distance_mm` still holding its
initial value 0 (source lines 505-510). -/
def computeMultiZoneConsensus (frame : List Zone) : ConsensusResult :=
  let valid := validDistances frame
  if valid.length < 4 then
    { consensus_distance_mm := 0, valid_zone_count := valid.length
      outlier_count := 0, is_reliable := false }
  else
    let median := computeMedian valid
    let kept := keptList valid median
    if kept.length = 0 then
      { consensus_distance_mm := 0, valid_zone_count := valid.length
        outlier_count := valid.length - kept.length, is_reliable := false }
    else
      { consensus_distance_mm := computeMean kept, valid_zone_count := valid.length
        outlier_count := valid.length - kept.length, is_reliable := true }

/-! ## Height calculation (src/HeightController.cpp, calculateHeight) -/

/-- The two sequential clamp statements of `calculateHeight`
(`if (height < 0) height = 0; if (height > 200) height = 200;`). -/
def clamp0to200 (height : ℤ) : ℤ :=
  if height < 0 then 0 else if height > 200 then 200 else height

/-- `HeightController::calculateHeight`: `calibration` is the `int16_t`
calibration constant, `filtered` the `uint16_t` filtered distance.
`int16_t distance_cm = filtered_mm / 10` and
`int16_t height = calibration + distance_cm` wrap at 16 bits; the result
is clamped to [0, 200] and returned as `uint16_t`. -/
def calculateHeight (calibration : ℤ) (filtered : ℕ) : ℕ :=
  if calibration = 0 then 0
  else (clamp0to200 (wrap16s (calibration + wrap16s ((filtered : ℤ) / 10)))).toNat

/-! ## Correctness of the embedded insertion sort -/

theorem insertAsc_perm (key : ℕ) (l : List ℕ) :
    List.Perm (insertAsc key l) (key :: l) := by
  induction l with
  | nil => simp [insertAsc]
  | cons x xs ih =>
    simp only [insertAsc]
    split
    · exact List.Perm.refl _
    · exact (List.Perm.cons x ih).trans (List.Perm.swap key x xs)

theorem insertAsc_sorted (key : ℕ) (l : List ℕ)
    (h : List.Sorted (· ≤ ·) l) : List.Sorted (· ≤ ·) (insertAsc key l) := by
  induction l with
  | nil => simp [insertAsc]
  | cons x xs ih =>
    rw [List.sorted_cons] at h
    simp only [insertAsc]
    split
    · rename_i hlt
      rw [List.sorted_cons]
      refine ⟨?_, List.sorted_cons.mpr h⟩
      intro b hb
      rcases List.mem_cons.mp hb with hb | hb
      · omega
      · have := h.1 b hb; omega
    · rename_i hge
      rw [List.sorted_cons]
      refine ⟨?_, ih h.2⟩
      intro b hb
      have hb' := (insertAsc_perm key xs).mem_iff.mp hb
      rcases List.mem_cons.mp hb' with hb' | hb'
      · omega
      · exact h.1 b hb'

theorem sortAsc_perm (l : List ℕ) : List.Perm (sortAsc l) l := by
  suffices h : ∀ (l acc : List ℕ),
      List.Perm (l.foldl (fun a v => insertAsc v a) acc) (acc ++ l) by
    simpa using h l []
  intro l
  induction l with
  | nil => simp
  | cons x xs ih =>
    intro acc
    simp only [List.foldl_cons]
    refine (ih (insertAsc x acc)).trans ?_
    refine (List.Perm.append_right xs (insertAsc_perm x acc)).trans ?_
    exact (List.perm_middle).symm

theorem sortAsc_sorted (l : List ℕ) : List.Sorted (· ≤ ·) (sortAsc l) := by
  suffices h : ∀ (l acc : List ℕ), List.Sorted (· ≤ ·) acc →
      List.Sorted (· ≤ ·) (l.foldl (fun a v => insertAsc v a) acc) by
    exact h l [] (by simp)
  intro l
  induction l with
  | nil => intro acc h; simpa using h
  | cons x xs ih =>
    intro acc h
    simp only [List.foldl_cons]
    exact ih _ (insertAsc_sorted x acc h)

/-- The embedded in-place insertion sort agrees with Mathlib's
`List.insertionSort`. -/
theorem sortAsc_eq_insertionSort (l : List ℕ) :
    sortAsc l = List.insertionSort (· ≤ ·) l := by
  refine List.eq_of_perm_of_sorted ?_ (sortAsc_sorted l)
    (List.sorted_insertionSort _ l)
  exact (sortAsc_perm l).trans (List.perm_insertionSort _ l).symm

/-- The value `computeMedian` returns is always one of the input values. -/
theorem computeMedian_mem (l : List ℕ) (h : l ≠ []) : computeMedian l ∈ l := by
  match l with
  | [v] => simp [computeMedian]
  | x :: y :: rest =>
    have hlen : (x :: y :: rest).length = rest.length + 2 := by simp
    have hs : List.Perm (sortAsc (x :: y :: rest)) (x :: y :: rest) :=
      sortAsc_perm _
    have hslen : (sortAsc (x :: y :: rest)).length = rest.length + 2 := by
      rw [hs.length_eq, hlen]
    simp only [computeMedian]
    split
    · have hlt : (x :: y :: rest).length / 2 - 1 < (sortAsc (x :: y :: rest)).length := by
        omega
      rw [List.getD_eq_getElem _ _ hlt]
      exact hs.mem_iff.mp (List.getElem_mem hlt)
    · have hlt : (x :: y :: rest).length / 2 < (sortAsc (x :: y :: rest)).length := by
        omega
      rw [List.getD_eq_getElem _ _ hlt]
      exact hs.mem_iff.mp (List.getElem_mem hlt)

/-- The median survives its own outlier filter, so the filter never rejects
every valid zone: the all-outliers fallback in
`computeMultiZoneConsensus` is dead code. -/
theorem keptList_ne_nil (l : List ℕ) (h : l ≠ []) :
    keptList l (computeMedian l) ≠ [] := by
  have hmem : computeMedian l ∈ keptList l (computeMedian l) := by
    refine List.mem_filter.mpr ⟨computeMedian_mem l h, ?_⟩
    simp [deviation]
  intro hnil
  rw [hnil] at hmem
  exact List.not_mem_nil _ hmem

/-- C8: `computeMedian` of a non-empty list of zone distances (a frame has
at most 16 zones) is the middle element of the sorted values for an odd
count, and the element at sorted index `count/2 - 1` — the lower of the two
central values, never their average — for an even count. -/
theorem C8_median_lower_middle (l : List ℕ) (h1 : l ≠ []) (h2 : l.length ≤ 16) :
    (l.length % 2 = 1 →
      computeMedian l = (List.insertionSort (· ≤ ·) l).getD (l.length / 2) 0) ∧
    (l.length % 2 = 0 →
      computeMedian l = (List.insertionSort (· ≤ ·) l).getD (l.length / 2 - 1) 0) := by
  match l with
  | [v] =>
    constructor
    · intro _
      simp [computeMedian, List.insertionSort, List.orderedInsert]
    · intro h
      simp at h
  | x :: y :: rest =>
    rw [show computeMedian (x :: y :: rest) =
        (if (x :: y :: rest).length % 2 = 0 then
          (sortAsc (x :: y :: rest)).getD ((x :: y :: rest).length / 2 - 1) 0
        else (sortAsc (x :: y :: rest)).getD ((x :: y :: rest).length / 2) 0) from rfl]
    rw [sortAsc_eq_insertionSort]
    constructor
    · intro hodd
      rw [if_neg (by omega)]
    · intro heven
      rw [if_pos heven]

/-- Witness for C8 at the spec's example: sorted `[800, 840, 850, 860]`
has even length, and the median is the lower central value 840. -/
theorem C8_median_lower_middle_witness :
    computeMedian [800, 840, 850, 860] =
      (List.insertionSort (· ≤ ·) [800, 840, 850, 860]).getD 1 0 ∧
    computeMedian [800, 840, 850, 860] = 840 := by
  have h := C8_median_lower_middle [800, 840, 850, 860] (by decide) (by decide)
  exact ⟨h.2 (by decide), by decide⟩

/-! ## MovingAverageFilter: circular buffer characterization

`FInv w l f` says that `f` is the filter state reached by feeding the
sample stream `l` into a fresh filter of (clamped) window `w`: the head
and count follow the stream length, and the buffer holds the last
`min l.length w` samples — laid out directly while filling, and as a
rotation `B ++ A` (with the logically oldest sample at index `head`)
once full. -/

def FInv (w : ℕ) (l : List ℕ) (f : Filter) : Prop :=
  f.windowSize = w ∧ f.head = l.length % w ∧ f.sampleCount = min l.length w ∧
  f.buffer.length = w ∧
  (l.length < w → f.buffer = l ++ List.replicate (w - l.length) 0) ∧
  (w ≤ l.length → ∃ A B : List ℕ, f.buffer = B ++ A ∧ B.length = l.length % w ∧
      l.drop (l.length - w) = A ++ B)

theorem clampWindowSize_bounds (w : ℕ) :
    3 ≤ clampWindowSize w ∧ clampWindowSize w ≤ 10 := by
  unfold clampWindowSize
  split
  · omega
  · split <;> omega

theorem mod_succ_shift (n w : ℕ) (hw : 2 ≤ w) : (n + 1) % w = (n % w + 1) % w := by
  rw [Nat.add_mod n 1 w, Nat.mod_eq_of_lt (show 1 < w by omega)]

theorem FInv_mkFilter (w : ℕ) : FInv (clampWindowSize w) [] (mkFilter w) := by
  have h3 := (clampWindowSize_bounds w).1
  refine ⟨rfl, by simp [mkFilter], by simp [mkFilter], by simp [mkFilter], ?_, ?_⟩
  · intro _
    simp [mkFilter]
  · intro h
    simp at h
    omega

theorem addSample_head_mod (f : Filter) (x n w : ℕ) (hw : 2 ≤ w)
    (hws : f.windowSize = w) (hhead : f.head = n % w) :
    (addSample f x).head = (n + 1) % w := by
  have h1 : (addSample f x).head = (n % w + 1) % w := by
    simp [addSample, hhead, hws]
  rw [h1, ← mod_succ_shift n w hw]

theorem addSample_count_min (f : Filter) (x n w : ℕ)
    (hws : f.windowSize = w) (hcount : f.sampleCount = min n w) :
    (addSample f x).sampleCount = min (n + 1) w := by
  have h1 : (addSample f x).sampleCount =
      if min n w < w then min n w + 1 else min n w := by
    simp [addSample, hcount, hws]
  rw [h1]
  split <;> omega

theorem FInv_addSample (w : ℕ) (hw : 3 ≤ w) (l : List ℕ) (x : ℕ) (f : Filter)
    (h : FInv w l f) : FInv w (l ++ [x]) (addSample f x) := by
  obtain ⟨hws, hhead, hcount, hblen, hpart, hfull⟩ := h
  have hmodsucc : (l.length + 1) % w = (l.length % w + 1) % w :=
    mod_succ_shift l.length w (by omega)
  have hheadGoal : (addSample f x).head = (l ++ [x]).length % w := by
    rw [List.length_append, List.length_singleton]
    exact addSample_head_mod f x l.length w (by omega) hws hhead
  have hcountGoal : (addSample f x).sampleCount = min (l ++ [x]).length w := by
    rw [List.length_append, List.length_singleton]
    exact addSample_count_min f x l.length w hws hcount
  have hbufEq : (addSample f x).buffer = f.buffer.set (l.length % w) x := by
    simp [addSample, hhead]
  by_cases hnw : l.length < w
  · -- filter not yet full: buffer is the stream followed by zero padding
    have hbuf := hpart hnw
    have hmod : l.length % w = l.length := Nat.mod_eq_of_lt hnw
    have hset : (addSample f x).buffer =
        (l ++ [x]) ++ List.replicate (w - (l.length + 1)) 0 := by
      have hrep : List.replicate (w - l.length) 0 =
          0 :: List.replicate (w - (l.length + 1)) 0 := by
        have h1 : w - l.length = (w - (l.length + 1)) + 1 := by omega
        rw [h1, List.replicate_succ]
      rw [hbufEq, hmod, hbuf, List.set_append, if_neg (by omega), Nat.sub_self,
        hrep]
      simp
    refine ⟨hws, hheadGoal, hcountGoal, ?_, ?_, ?_⟩
    · rw [hset]
      simp only [List.length_append, List.length_replicate, List.length_singleton]
      omega
    · intro _
      rw [hset]
      simp
    · intro hge
      simp only [List.length_append, List.length_singleton] at hge
      have hfullnow : l.length + 1 = w := by omega
      refine ⟨l ++ [x], [], ?_, ?_, ?_⟩
      · rw [hset]
        have h0 : w - (l.length + 1) = 0 := by omega
        simp [h0]
      · simp only [List.length_nil, List.length_append, List.length_singleton,
          hfullnow, Nat.mod_self]
      · simp only [List.length_append, List.length_singleton]
        have h0 : l.length + 1 - w = 0 := by omega
        simp [h0]
  · -- filter full: the new sample overwrites the oldest slot
    have hge : w ≤ l.length := by omega
    obtain ⟨A, B, hbuf, hB, hrecent⟩ := hfull hge
    have hr : l.length % w < w := Nat.mod_lt _ (by omega)
    have hA : A.length = w - l.length % w := by
      have h1 := hblen
      rw [hbuf, List.length_append, hB] at h1
      omega
    cases A with
    | nil =>
      exfalso
      simp at hA
      omega
    | cons a A' =>
      have hA' : A'.length = w - l.length % w - 1 := by
        simp only [List.length_cons] at hA
        omega
      have hset : (addSample f x).buffer = B ++ x :: A' := by
        have h0 : l.length % w - B.length = 0 := by omega
        rw [hbufEq, hbuf, List.set_append, if_neg (by omega), h0]
        simp
      have hdrop1 : l.drop (l.length + 1 - w) = A' ++ B := by
        have h1 : l.length + 1 - w = (l.length - w) + 1 := by omega
        rw [h1, ← List.drop_drop, hrecent]
        simp
      have hrecent' : (l ++ [x]).drop (l.length + 1 - w) = (A' ++ B) ++ [x] := by
        rw [List.drop_append_of_le_length (by omega), hdrop1]
      refine ⟨hws, hheadGoal, hcountGoal, ?_, ?_, ?_⟩
      · rw [hset]
        have h1 := hblen
        rw [hbuf] at h1
        simp only [List.length_append, List.length_cons] at h1 ⊢
        omega
      · intro hlt
        simp only [List.length_append, List.length_singleton] at hlt
        omega
      · intro _
        simp only [List.length_append, List.length_singleton]
        by_cases hr1 : l.length % w + 1 < w
        · refine ⟨A', B ++ [x], ?_, ?_, ?_⟩
          · rw [hset]
            simp
          · rw [List.length_append, hB, List.length_singleton, hmodsucc,
              Nat.mod_eq_of_lt hr1]
          · rw [hrecent']
            simp
        · -- the write lands in the last slot and the rotation resets
          have hr2 : l.length % w + 1 = w := by omega
          have hA'nil : A' = [] := by
            have h0 : A'.length = 0 := by omega
            exact List.length_eq_zero.mp h0
          refine ⟨B ++ [x], [], ?_, ?_, ?_⟩
          · rw [hset, hA'nil]
            simp
          · simp only [List.length_nil, hmodsucc, hr2, Nat.mod_self]
          · rw [hrecent', hA'nil]
            simp

theorem feedAll_append (w : ℕ) (l : List ℕ) (x : ℕ) :
    feedAll w (l ++ [x]) = addSample (feedAll w l) x := by
  simp [feedAll, List.foldl_append]

theorem FInv_feedAll (w : ℕ) (l : List ℕ) :
    FInv (clampWindowSize w) l (feedAll w l) := by
  induction l using List.reverseRecOn with
  | nil => exact FInv_mkFilter w
  | append_singleton l x ih =>
    rw [feedAll_append]
    exact FInv_addSample _ (clampWindowSize_bounds w).1 _ _ _ ih

/-- The average a filter reports, given any list `m` with the same length
as `sampleCount` and the same sum as the summed buffer prefix: for the
documented extremes (window ≤ 10, samples ≤ 65535) neither the `uint32_t`
accumulator nor the `uint16_t` result cast wraps. -/
theorem getAverage_of_sum (f : Filter) (m : List ℕ) (hc : f.sampleCount = m.length)
    (ht : (f.buffer.take f.sampleCount).sum = m.sum) (hlen : 0 < m.length)
    (hlen10 : m.length ≤ 10) (hm : ∀ s ∈ m, s ≤ 65535) :
    getAverage f = m.sum / m.length := by
  have hsum : m.sum ≤ m.length * 65535 := by
    have h1 := List.sum_le_card_nsmul m 65535 hm
    simpa [smul_eq_mul] using h1
  have hsumlt : m.sum < 4294967296 := by
    have h2 : m.length * 65535 ≤ 10 * 65535 := Nat.mul_le_mul_right 65535 hlen10
    omega
  have hdiv : m.sum / m.length ≤ 65535 := by
    have h1 : m.sum / m.length ≤ (m.length * 65535) / m.length :=
      Nat.div_le_div_right hsum
    rwa [Nat.mul_div_cancel_left _ hlen] at h1
  rw [getAverage, if_neg (by omega), ht, hc, Nat.mod_eq_of_lt hsumlt,
    Nat.mod_eq_of_lt (by omega)]

/-- C7: the temporal filter returns 0 when empty; after `n ≤ window`
samples it returns the truncating mean of exactly those samples (no zero
padding); once the stream exceeds the window it returns the truncating
mean of the most recent `window` samples (the oldest are evicted), and for
window 3 the stream 100,200,300,400,500 averages to 400.  The equalities
are stated without the accumulator wrap, so they also certify that the
32-bit accumulator does not overflow for window ≤ 10, samples ≤ 65535. -/
theorem C7_moving_average_window (w : ℕ) (l : List ℕ) (hs : ∀ s ∈ l, s ≤ 65535) :
    getAverage (feedAll w []) = 0 ∧
    (0 < l.length → l.length ≤ clampWindowSize w →
      getAverage (feedAll w l) = l.sum / l.length) ∧
    (clampWindowSize w ≤ l.length →
      getAverage (feedAll w l) =
        (l.drop (l.length - clampWindowSize w)).sum / clampWindowSize w) ∧
    getAverage (feedAll 3 [100, 200, 300, 400, 500]) = 400 := by
  obtain ⟨hw3, hw10⟩ := clampWindowSize_bounds w
  refine ⟨by simp [feedAll, getAverage, mkFilter], ?_, ?_, by decide⟩
  · intro h0 hle
    obtain ⟨hws, hhead, hcount, hblen, hpart, hfull⟩ := FInv_feedAll w l
    have hc : (feedAll w l).sampleCount = l.length := by
      rw [hcount]
      exact Nat.min_eq_left hle
    refine getAverage_of_sum _ l hc ?_ h0 (le_trans hle hw10) hs
    by_cases hlt : l.length < clampWindowSize w
    · rw [hc, hpart hlt, List.take_left]
    · have heq : l.length = clampWindowSize w :=
        Nat.le_antisymm hle (Nat.not_lt.mp hlt)
      obtain ⟨A, B, hbuf, hB, hrecent⟩ := hfull (Nat.le_of_eq heq.symm)
      have hBnil : B = [] := by
        refine List.length_eq_zero.mp ?_
        rw [hB, heq, Nat.mod_self]
      rw [hBnil, List.nil_append] at hbuf
      rw [heq, Nat.sub_self, List.drop_zero, hBnil, List.append_nil] at hrecent
      rw [hc, hbuf, ← hrecent, List.take_length]
  · intro hge
    obtain ⟨hws, hhead, hcount, hblen, hpart, hfull⟩ := FInv_feedAll w l
    obtain ⟨A, B, hbuf, hB, hrecent⟩ := hfull hge
    clear hfull hpart
    have hdroplen : (l.drop (l.length - clampWindowSize w)).length =
        clampWindowSize w := by
      rw [List.length_drop]
      omega
    have hc : (feedAll w l).sampleCount =
        (l.drop (l.length - clampWindowSize w)).length := by
      rw [hcount, hdroplen]
      exact Nat.min_eq_right hge
    have h := getAverage_of_sum (feedAll w l) (l.drop (l.length - clampWindowSize w))
      hc ?_ ?_ ?_ ?_
    · rw [hdroplen] at h
      exact h
    · rw [hc, hdroplen]
      have htake : (feedAll w l).buffer.take (clampWindowSize w) =
          (feedAll w l).buffer := by
        rw [← hblen, List.take_length]
      rw [htake, hbuf, hrecent, List.sum_append, List.sum_append]
      omega
    · rw [hdroplen]
      omega
    · rw [hdroplen]
      exact hw10
    · intro s hsmem
      exact hs s (List.mem_of_mem_drop hsmem)

/-- Witness for C7: a window-5 filter fed 100,200,300 averages exactly
those three samples (to 200), and the window-3 eviction example gives
400. -/
theorem C7_moving_average_window_witness :
    getAverage (feedAll 5 [100, 200, 300]) = 200 ∧
    getAverage (feedAll 3 [100, 200, 300, 400, 500]) = 400 := by
  have h := C7_moving_average_window 5 [100, 200, 300] (by decide)
  refine ⟨?_, h.2.2.2⟩
  rw [h.2.1 (by decide) (by decide)]
  decide

/-! ## SystemConfiguration (src/SystemConfiguration.cpp) -/

structure SysConfig where
  calibrationConstant : ℤ
  minHeight : ℕ
  maxHeight : ℕ
  tolerance : ℕ
  stabilizationDuration : ℕ
  movementTimeout : ℕ
  filterWindowSize : ℕ
  deriving Repr, DecidableEq

/-- `SystemConfiguration::applyDefaults` (values from Config.h). -/
def defaultsConfig : SysConfig :=
  { calibrationConstant := 0, minHeight := 50, maxHeight := 125, tolerance := 10
    stabilizationDuration := 2000, movementTimeout := 30000, filterWindowSize := 5 }

/-- `SystemConfiguration::isCalibrated`. -/
def isCalibrated (cfg : SysConfig) : Bool := cfg.calibrationConstant ≠ 0

/-- `SystemConfiguration::isValidHeight`. -/
def isValidHeight (cfg : SysConfig) (height : ℕ) : Bool :=
  cfg.minHeight ≤ height ∧ height ≤ cfg.maxHeight

/-- `SystemConfiguration::setTolerance`: clamp into [5, 50], then persist
to NVS (`nvsOk` models whether `saveUInt16` succeeds); the member is
updated only on a successful save. -/
def setTolerance (cfg : SysConfig) (value : ℕ) (nvsOk : Bool) : Bool × SysConfig :=
  let v1 := if value < 5 then 5 else value
  let v2 := if v1 > 50 then 50 else v1
  if nvsOk then (true, { cfg with tolerance := v2 }) else (false, cfg)

/-- C10: `setTolerance` never rejects a value for being out of range — it
fails only when the NVS write fails — and a successful call stores the
value clamped into [5, 50], so the stored tolerance always lies in that
range afterwards. -/
theorem C10_setTolerance_clamps (cfg : SysConfig) (value : ℕ) (nvsOk : Bool) :
    (setTolerance cfg value nvsOk).1 = nvsOk ∧
    ((setTolerance cfg value nvsOk).1 = true →
      (setTolerance cfg value nvsOk).2.tolerance = min 50 (max 5 value) ∧
      5 ≤ (setTolerance cfg value nvsOk).2.tolerance ∧
      (setTolerance cfg value nvsOk).2.tolerance ≤ 50) ∧
    ((setTolerance cfg value nvsOk).1 = false →
      (setTolerance cfg value nvsOk).2 = cfg) := by
  cases nvsOk with
  | false => simp [setTolerance]
  | true =>
    refine ⟨by simp [setTolerance], fun _ => ?_, by simp [setTolerance]⟩
    have ht : (setTolerance cfg value true).2.tolerance =
        if (if value < 5 then 5 else value) > 50 then 50
        else if value < 5 then 5 else value := by
      simp [setTolerance]
    have hval : (setTolerance cfg value true).2.tolerance = min 50 (max 5 value) := by
      rw [ht]
      by_cases h5 : value < 5
      · rw [if_neg (by rw [if_pos h5]; omega), if_pos h5]
        omega
      · rw [if_neg h5]
        by_cases h50 : value > 50
        · rw [if_pos h50]
          omega
        · rw [if_neg h50]
          omega
    refine ⟨hval, ?_, ?_⟩ <;> rw [hval] <;> omega

/-- Witness for C10: the defaults configuration, value 100, successful
save: stored tolerance is 50 and within range. -/
theorem C10_setTolerance_clamps_witness :
    (setTolerance defaultsConfig 100 true).1 = true ∧
    (setTolerance defaultsConfig 100 true).2.tolerance = 50 := by
  have h := C10_setTolerance_clamps defaultsConfig 100 true
  exact ⟨h.1, by rw [(h.2.1 h.1).1]; decide⟩

/-! ## calculateHeight claims (C5, C6) -/

/-- The height value the specification's formula describes:
`calibration_constant_cm + filtered_mm/10` (exact integer arithmetic, no
16-bit wrap) clamped to [0, 200]; 0 when uncalibrated. -/
def claimedHeightSpec (calibration : ℤ) (filtered : ℕ) : ℕ :=
  if calibration = 0 then 0
  else (min 200 (max 0 (calibration + (filtered : ℤ) / 10))).toNat

theorem wrap16s_eq_self (x : ℤ) (h1 : -32768 ≤ x) (h2 : x ≤ 32767) :
    wrap16s x = x := by
  unfold wrap16s
  omega

/-- Counterexample for C5: at calibration 32767 and filtered distance
65535 the `int16_t` sum wraps negative and the code returns 0, while the
claim's clamped formula gives 200. -/
theorem C5_calculate_height_counterexample :
    calculateHeight 32767 65535 = 0 ∧ claimedHeightSpec 32767 65535 = 200 ∧
    calculateHeight 32767 65535 ≠ claimedHeightSpec 32767 65535 := by
  refine ⟨by decide, by decide, by decide⟩

/-- C5 as amended: `calculateHeight` returns 0 for calibration constant 0,
and matches the claim's clamped formula whenever the `int16_t` sum
`calibration + filtered/10` does not overflow (it can reach 39320 at the
extremes, wrapping negative and clamping to 0 instead of 200). -/
theorem C5_calculate_height_amended (cal : ℤ) (filtered : ℕ)
    (hcal1 : -32768 ≤ cal) (hcal2 : cal ≤ 32767) (hf : filtered < 65536) :
    (cal = 0 → calculateHeight cal filtered = 0) ∧
    (cal ≠ 0 → cal + (filtered : ℤ) / 10 ≤ 32767 →
      calculateHeight cal filtered = claimedHeightSpec cal filtered) := by
  constructor
  · intro h0
    simp [calculateHeight, h0]
  · intro hne hbound
    have hfz : (filtered : ℤ) < 65536 := by exact_mod_cast hf
    have hfz0 : 0 ≤ (filtered : ℤ) := Int.natCast_nonneg filtered
    have hd1 : 0 ≤ (filtered : ℤ) / 10 := by omega
    have hd2 : (filtered : ℤ) / 10 ≤ 6553 := by omega
    rw [calculateHeight, claimedHeightSpec, if_neg hne, if_neg hne]
    rw [wrap16s_eq_self ((filtered : ℤ) / 10) (by omega) (by omega)]
    rw [wrap16s_eq_self (cal + (filtered : ℤ) / 10) (by omega) (by omega)]
    rw [clamp0to200]
    split
    · omega
    · split <;> omega

/-- Witness for C5 at calibration -50, filtered 1250: both the code and
the claim's formula give 75. -/
theorem C5_calculate_height_amended_witness :
    calculateHeight (-50) 1250 = claimedHeightSpec (-50) 1250 ∧
    calculateHeight (-50) 1250 = 75 := by
  have h := C5_calculate_height_amended (-50) 1250 (by decide) (by decide) (by decide)
  exact ⟨h.2 (by decide) (by decide), by decide⟩

/-- Counterexample for C6: with calibration constant 200 and filtered
distance 1250 mm, `calculateHeight` returns 200 (the sum 325 clamps to
the 200 cm cap), not the claimed 75. -/
theorem C6_height_round_counterexample :
    calculateHeight 200 1250 = 200 ∧ calculateHeight 200 1250 ≠ 75 := by
  refine ⟨by decide, by decide⟩

/-- C6 as amended: with calibration 200 the heights at 1250, 1255 and
1259 mm are all equal (to 200, the clamp cap); the claimed value 75
obtains — with the same truncating-division equality — at calibration
-50. -/
theorem C6_height_round_amended :
    calculateHeight 200 1250 = 200 ∧
    calculateHeight 200 1255 = calculateHeight 200 1250 ∧
    calculateHeight 200 1259 = calculateHeight 200 1250 ∧
    calculateHeight (-50) 1250 = 75 ∧
    calculateHeight (-50) 1255 = 75 ∧
    calculateHeight (-50) 1259 = 75 := by
  refine ⟨by decide, by decide, by decide, by decide, by decide, by decide⟩

/-! ## MovementController (src/MovementController.cpp)

The controller state carries the motor pin levels (`PIN_MOTOR_UP`,
`PIN_MOTOR_DOWN`); every operation additionally returns the ordered list
of `digitalWrite` calls it performed, so that the mutual-exclusion
invariant can be checked at every intermediate point of a pin update. -/

inductive MState where
  | idle
  | movingUp
  | movingDown
  | stabilizing
  | error
  deriving DecidableEq, Repr, Fintype

inductive Pin where
  | up
  | down
  deriving DecidableEq, Repr, Fintype

structure PinState where
  up : Bool
  down : Bool
  deriving DecidableEq, Repr, Fintype

/-- One `digitalWrite(pin, level)` call. -/
abbrev PinWrite := Pin × Bool

def applyW (p : PinState) (w : PinWrite) : PinState :=
  match w.1 with
  | Pin.up => { p with up := w.2 }
  | Pin.down => { p with down := w.2 }

def applyWrites (p : PinState) (ws : List PinWrite) : PinState := ws.foldl applyW p

/-- The `digitalWrite` sequence of `MovementController::setMotorPins`:
for a drive state the opposite pin is written LOW first (with a settling
delay), then the drive pin HIGH; all other states force both pins LOW. -/
def setMotorPinsWrites : MState → List PinWrite
  | MState.movingUp => [(Pin.down, false), (Pin.up, true)]
  | MState.movingDown => [(Pin.up, false), (Pin.down, true)]
  | _ => [(Pin.up, false), (Pin.down, false)]

inductive TSource where
  | manual
  | preset
  deriving DecidableEq, Repr

structure MC where
  state : MState
  targetActive : Bool
  targetHeightCm : ℕ
  targetTolMm : ℕ
  targetActivation : ℕ
  targetSource : TSource
  targetSourceId : ℕ
  lastError : String
  movementStart : ℕ
  stabilizationStart : ℕ
  pins : PinState
  deriving DecidableEq, Repr

/-- What one controller call observes of its collaborators: `millis()`,
the `HeightController` accessors and the `SystemConfig` getters. -/
structure Env where
  millis : ℕ
  hcValid : Bool
  hcAge : ℕ
  hcHeight : ℕ
  cfg : SysConfig
  deriving DecidableEq, Repr

/-- The `MovementController` constructor state; the pins start LOW
(hardware reset level, and `init()` forces them LOW again). -/
def initMC : MC :=
  { state := MState.idle, targetActive := false, targetHeightCm := 0
    targetTolMm := 10, targetActivation := 0, targetSource := TSource.manual
    targetSourceId := 0, lastError := "", movementStart := 0
    stabilizationStart := 0, pins := ⟨false, false⟩ }

/-- `MovementController::setState`: on an actual change update the state,
drive the pins, record the error message when entering ERROR, start the
stabilization timer when entering STABILIZING. -/
def setState (s : MC) (env : Env) (newState : MState) (msg : String) :
    MC × List PinWrite :=
  if s.state = newState then (s, [])
  else
    ({ s with
        state := newState
        pins := applyWrites s.pins (setMotorPinsWrites newState)
        lastError := if newState = MState.error then msg else s.lastError
        stabilizationStart :=
          if newState = MState.stabilizing then env.millis else s.stabilizationStart },
      setMotorPinsWrites newState)

def isMoving (s : MC) : Bool :=
  decide (s.state = MState.movingUp) || decide (s.state = MState.movingDown)

/-- `MovementController::checkSensorValidity`: the reading is accepted if
it is VALID or simply fresh (`getReadingAge() < READING_STALE_TIMEOUT_MS`). -/
def checkSensorValidity (env : Env) : Bool :=
  env.hcValid || decide (env.hcAge < 1000)

def checkTimeout (s : MC) (env : Env) : Bool :=
  isMoving s && decide (wrap32sub env.millis s.movementStart > env.cfg.movementTimeout)

/-- `int16_t diff_mm = ((int16_t)target - (int16_t)current) * 10`. -/
def diffMm (target current : ℕ) : ℤ :=
  wrap16s ((toInt16 target - toInt16 current) * 10)

def isWithinTolerance (s : MC) (env : Env) : Bool :=
  if !s.targetActive then false
  else decide (|diffMm s.targetHeightCm env.hcHeight| ≤ toInt16 s.targetTolMm)

def determineDirection (s : MC) (env : Env) : MState :=
  if !s.targetActive then MState.idle
  else if |diffMm s.targetHeightCm env.hcHeight| ≤ toInt16 s.targetTolMm then
    MState.idle
  else if env.hcHeight < s.targetHeightCm then MState.movingUp
  else MState.movingDown

def handleIdleState (s : MC) (env : Env) : MC × List PinWrite :=
  if s.targetActive then
    let dir := determineDirection s env
    if dir ≠ MState.idle then
      setState { s with movementStart := env.millis } env dir
        "Starting movement to target"
    else (s, [])
  else (s, [])

def handleMovingState (s : MC) (env : Env) : MC × List PinWrite :=
  if isWithinTolerance s env then
    setState s env MState.stabilizing "Target reached, stabilizing"
  else
    let dir := determineDirection s env
    if dir ≠ s.state ∧ dir ≠ MState.idle then setState s env dir "Direction changed"
    else (s, [])

/-- `handleStabilizingState`: on drift the movement resumes WITHOUT
resetting `movementStartTime_` (source comment: keep original timeout). -/
def handleStabilizingState (s : MC) (env : Env) : MC × List PinWrite :=
  if !isWithinTolerance s env then
    let dir := determineDirection s env
    if dir ≠ MState.idle then
      setState s env dir "Drifted outside tolerance, resuming movement"
    else (s, [])
  else if wrap32sub env.millis s.stabilizationStart ≥ env.cfg.stabilizationDuration then
    setState { s with targetActive := false } env MState.idle
      "Target reached and stable"
  else (s, [])

def handleErrorState (s : MC) : MC × List PinWrite :=
  ({ s with pins := applyWrites s.pins (setMotorPinsWrites MState.error) },
    setMotorPinsWrites MState.error)

/-- `MovementController::update`. -/
def update (s : MC) (env : Env) : MC × List PinWrite :=
  if !checkSensorValidity env && isMoving s then
    setState s env MState.error "Sensor reading invalid during movement"
  else if isMoving s && checkTimeout s env then
    setState s env MState.error "Movement timeout - target not reached"
  else
    match s.state with
    | MState.idle => handleIdleState s env
    | MState.movingUp => handleMovingState s env
    | MState.movingDown => handleMovingState s env
    | MState.stabilizing => handleStabilizingState s env
    | MState.error => handleErrorState s

/-- `MovementController::setTargetHeight`. -/
def setTargetHeight (s : MC) (env : Env) (height : ℕ) :
    Bool × MC × List PinWrite :=
  if !isValidHeight env.cfg height then (false, s, [])
  else if !isCalibrated env.cfg then
    (false, { s with lastError := "System not calibrated" }, [])
  else if s.state = MState.error then (false, s, [])
  else
    let s1 := { s with targetHeightCm := height, targetTolMm := env.cfg.tolerance
                       targetActivation := env.millis, targetSource := TSource.manual
                       targetSourceId := 0, targetActive := true }
    let dir := determineDirection s1 env
    if dir = MState.idle then (true, { s1 with targetActive := false }, [])
    else
      let s2 := { s1 with movementStart := env.millis }
      let r := setState s2 env dir
        (if dir = MState.movingUp then "Moving up to target" else "Moving down to target")
      (true, r)

/-- `MovementController::setTargetFromPreset`. -/
def setTargetFromPreset (s : MC) (env : Env) (height slot : ℕ) :
    Bool × MC × List PinWrite :=
  let r := setTargetHeight s env height
  if !r.1 then (false, r.2)
  else
    (true, { r.2.1 with targetSource := TSource.preset, targetSourceId := slot },
      r.2.2)

/-- `MovementController::emergencyStop`: stop the motors, clear the
target, return to IDLE. -/
def emergencyStop (s : MC) (env : Env) : MC × List PinWrite :=
  let s1 := { s with pins := applyWrites s.pins (setMotorPinsWrites MState.idle)
                     targetActive := false }
  let r2 := setState s1 env MState.idle "Emergency stop activated"
  (r2.1, setMotorPinsWrites MState.idle ++ r2.2)

/-- `MovementController::clearError`. -/
def clearError (s : MC) (env : Env) : MC × List PinWrite :=
  if s.state ≠ MState.error then (s, [])
  else
    let s1 := { s with targetActive := false, lastError := "" }
    let r := setState s1 env MState.idle "Error cleared"
    (r.1, r.2)

/-- `MovementController::init`: force the motors off, refresh the target
tolerance from the configuration. -/
def initOp (s : MC) (env : Env) : MC × List PinWrite :=
  ({ s with pins := applyWrites s.pins (setMotorPinsWrites MState.idle)
            targetTolMm := env.cfg.tolerance },
    setMotorPinsWrites MState.idle)

/-- The controller's public operations. -/
inductive Op where
  | opInit (env : Env)
  | opUpdate (env : Env)
  | opSetTarget (env : Env) (height : ℕ)
  | opSetPreset (env : Env) (height slot : ℕ)
  | opEmergencyStop (env : Env)
  | opClearError (env : Env)

def step (s : MC) : Op → MC × List PinWrite
  | Op.opInit env => initOp s env
  | Op.opUpdate env => update s env
  | Op.opSetTarget env h => (setTargetHeight s env h).2
  | Op.opSetPreset env h slot => (setTargetFromPreset s env h slot).2
  | Op.opEmergencyStop env => emergencyStop s env
  | Op.opClearError env => clearError s env

/-- The controller states reachable by any call sequence from the
constructor state, under arbitrary sensor readings, clocks and
configurations. -/
inductive Reach : MC → Prop where
  | start : Reach initMC
  | next (s : MC) (op : Op) : Reach s → Reach (step s op).1

/-! ### Pin safety predicates -/

/-- At most one drive pin HIGH. -/
def pinsSafeB (p : PinState) : Bool := !(p.up && p.down)

/-- Mutual exclusion holds after every single write of the sequence. -/
def prefixSafeB (p : PinState) : List PinWrite → Bool
  | [] => true
  | w :: ws => pinsSafeB (applyW p w) && prefixSafeB (applyW p w) ws

def oppositePin : Pin → Pin
  | Pin.up => Pin.down
  | Pin.down => Pin.up

/-- Every HIGH write in the sequence is preceded (earlier in the same
sequence, `pre` collecting the writes already issued) by a LOW write to
the opposite pin. -/
def lowFirstB : List PinWrite → List PinWrite → Bool
  | _, [] => true
  | pre, w :: ws =>
      (if w.2 then List.contains pre (oppositePin w.1, false) else true) &&
      lowFirstB (pre ++ [w]) ws

/-- The shape of every write sequence an operation can emit: nothing, one
`setMotorPins` sequence, or (emergency stop) the both-LOW sequence
followed by one `setMotorPins` sequence. -/
def GTrace (ws : List PinWrite) : Prop :=
  ws = [] ∨ (∃ st : MState, ws = setMotorPinsWrites st) ∨
    (∃ st : MState, ws = setMotorPinsWrites MState.idle ++ setMotorPinsWrites st)

/-- One call's result is pin-coherent with its write trace and emits a
`GTrace`-shaped trace. -/
def WGood (base : PinState) (r : MC × List PinWrite) : Prop :=
  r.1.pins = applyWrites base r.2 ∧
    (r.2 = [] ∨ ∃ st : MState, r.2 = setMotorPinsWrites st)

theorem wgood_setState (s : MC) (env : Env) (st : MState) (msg : String) :
    WGood s.pins (setState s env st msg) := by
  unfold setState
  split
  · exact ⟨rfl, Or.inl rfl⟩
  · exact ⟨rfl, Or.inr ⟨st, rfl⟩⟩

theorem wgood_handleIdle (s : MC) (env : Env) :
    WGood s.pins (handleIdleState s env) := by
  unfold handleIdleState
  simp only []
  split
  · split
    · exact wgood_setState { s with movementStart := env.millis } env _ _
    · exact ⟨rfl, Or.inl rfl⟩
  · exact ⟨rfl, Or.inl rfl⟩

theorem wgood_handleMoving (s : MC) (env : Env) :
    WGood s.pins (handleMovingState s env) := by
  unfold handleMovingState
  simp only []
  split
  · exact wgood_setState s env _ _
  · split
    · exact wgood_setState s env _ _
    · exact ⟨rfl, Or.inl rfl⟩

theorem wgood_handleStabilizing (s : MC) (env : Env) :
    WGood s.pins (handleStabilizingState s env) := by
  unfold handleStabilizingState
  simp only []
  split
  · split
    · exact wgood_setState s env _ _
    · exact ⟨rfl, Or.inl rfl⟩
  · split
    · exact wgood_setState { s with targetActive := false } env _ _
    · exact ⟨rfl, Or.inl rfl⟩

theorem wgood_update (s : MC) (env : Env) : WGood s.pins (update s env) := by
  unfold update
  split
  · exact wgood_setState s env _ _
  · split
    · exact wgood_setState s env _ _
    · cases hs : s.state
      · exact wgood_handleIdle s env
      · exact wgood_handleMoving s env
      · exact wgood_handleMoving s env
      · exact wgood_handleStabilizing s env
      · exact ⟨rfl, Or.inr ⟨MState.error, rfl⟩⟩

theorem wgood_setTargetHeight (s : MC) (env : Env) (height : ℕ) :
    WGood s.pins (setTargetHeight s env height).2 := by
  unfold setTargetHeight
  simp only []
  split
  · exact ⟨rfl, Or.inl rfl⟩
  · split
    · exact ⟨rfl, Or.inl rfl⟩
    · split
      · exact ⟨rfl, Or.inl rfl⟩
      · split
        · exact ⟨rfl, Or.inl rfl⟩
        · exact wgood_setState _ env _ _

theorem wgood_setTargetFromPreset (s : MC) (env : Env) (height slot : ℕ) :
    WGood s.pins (setTargetFromPreset s env height slot).2 := by
  unfold setTargetFromPreset
  simp only []
  split
  · exact wgood_setTargetHeight s env height
  · obtain ⟨h1, h2⟩ := wgood_setTargetHeight s env height
    exact ⟨h1, h2⟩

theorem wgood_clearError (s : MC) (env : Env) : WGood s.pins (clearError s env) := by
  unfold clearError
  simp only []
  split
  · exact ⟨rfl, Or.inl rfl⟩
  · exact wgood_setState _ env _ _

/-- Every operation's result pins are its trace applied to the old pins,
and the trace has one of the three `GTrace` shapes. -/
theorem step_char (s : MC) (op : Op) :
    (step s op).1.pins = applyWrites s.pins (step s op).2 ∧ GTrace (step s op).2 := by
  have weaken : ∀ r : MC × List PinWrite, WGood s.pins r →
      r.1.pins = applyWrites s.pins r.2 ∧ GTrace r.2 := by
    rintro r ⟨h1, h2 | ⟨st, h2⟩⟩
    · exact ⟨h1, Or.inl h2⟩
    · exact ⟨h1, Or.inr (Or.inl ⟨st, h2⟩)⟩
  cases op with
  | opInit env => exact ⟨rfl, Or.inr (Or.inl ⟨MState.idle, rfl⟩)⟩
  | opUpdate env => exact weaken _ (wgood_update s env)
  | opSetTarget env h => exact weaken _ (wgood_setTargetHeight s env h)
  | opSetPreset env h slot => exact weaken _ (wgood_setTargetFromPreset s env h slot)
  | opEmergencyStop env =>
    simp only [step]
    unfold emergencyStop
    simp only []
    obtain ⟨h1, h2 | ⟨st, h2⟩⟩ :=
      wgood_setState
        { s with pins := applyWrites s.pins (setMotorPinsWrites MState.idle)
                 targetActive := false } env MState.idle "Emergency stop activated"
    · constructor
      · rw [h2, List.append_nil, h1, h2]
        rfl
      · rw [h2, List.append_nil]
        exact Or.inr (Or.inl ⟨MState.idle, rfl⟩)
    · constructor
      · rw [h1, h2]
        exact (List.foldl_append applyW s.pins _ _).symm
      · exact Or.inr (Or.inr ⟨st, by rw [h2]⟩)
  | opClearError env => exact weaken _ (wgood_clearError s env)

theorem setMotorPins_trace_safe :
    ∀ (st : MState) (p : PinState), pinsSafeB p = true →
      (prefixSafeB p (setMotorPinsWrites st) &&
        lowFirstB [] (setMotorPinsWrites st)) = true := by
  decide

theorem estop_trace_safe :
    ∀ (st : MState) (p : PinState), pinsSafeB p = true →
      (prefixSafeB p (setMotorPinsWrites MState.idle ++ setMotorPinsWrites st) &&
        lowFirstB [] (setMotorPinsWrites MState.idle ++ setMotorPinsWrites st)) = true := by
  decide

theorem prefixSafe_last (p : PinState) (ws : List PinWrite)
    (h : prefixSafeB p ws = true) (hp : pinsSafeB p = true) :
    pinsSafeB (applyWrites p ws) = true := by
  induction ws generalizing p with
  | nil => exact hp
  | cons w ws ih =>
    rw [prefixSafeB, Bool.and_eq_true] at h
    exact ih (applyW p w) h.2 h.1

theorem step_trace_safe (s : MC) (op : Op) (hp : pinsSafeB s.pins = true) :
    prefixSafeB s.pins (step s op).2 = true ∧ lowFirstB [] (step s op).2 = true := by
  rcases (step_char s op).2 with h | ⟨st, h⟩ | ⟨st, h⟩
  · rw [h]
    exact ⟨rfl, rfl⟩
  · rw [h]
    have := setMotorPins_trace_safe st s.pins hp
    rw [Bool.and_eq_true] at this
    exact this
  · rw [h]
    have := estop_trace_safe st s.pins hp
    rw [Bool.and_eq_true] at this
    exact this

theorem step_pins_safe (s : MC) (op : Op) (hp : pinsSafeB s.pins = true) :
    pinsSafeB (step s op).1.pins = true := by
  rw [(step_char s op).1]
  exact prefixSafe_last s.pins (step s op).2 (step_trace_safe s op hp).1 hp

theorem reach_pins_safe (s : MC) (h : Reach s) : pinsSafeB s.pins = true := by
  induction h with
  | start => rfl
  | next s op _ ih => exact step_pins_safe s op ih

/-- C1: in every reachable controller state at most one of the two motor
pins is HIGH; moreover, for any next operation, mutual exclusion holds
after every single `digitalWrite` of the emitted sequence, and every
HIGH write is preceded in the same sequence by a LOW write to the
opposite pin. -/
theorem C1_pin_mutual_exclusion (s : MC) (op : Op) (h : Reach s) :
    pinsSafeB s.pins = true ∧
    prefixSafeB s.pins (step s op).2 = true ∧
    lowFirstB [] (step s op).2 = true := by
  have hp := reach_pins_safe s h
  exact ⟨hp, (step_trace_safe s op hp).1, (step_trace_safe s op hp).2⟩

/-- Witness for C1: the constructor state is reachable and an `update`
call from it keeps the pins mutually exclusive throughout. -/
theorem C1_pin_mutual_exclusion_witness :
    pinsSafeB initMC.pins = true ∧
    prefixSafeB initMC.pins
      (step initMC (Op.opUpdate ⟨0, true, 0, 0, defaultsConfig⟩)).2 = true ∧
    lowFirstB [] (step initMC (Op.opUpdate ⟨0, true, 0, 0, defaultsConfig⟩)).2 = true :=
  C1_pin_mutual_exclusion initMC (Op.opUpdate ⟨0, true, 0, 0, defaultsConfig⟩)
    Reach.start

/-! ## C4: stabilization re-entry preserves the movement-start timestamp -/

/-- C4: when `update` runs in STABILIZING with an active target that has
drifted back outside tolerance, the controller resumes MOVING_UP or
MOVING_DOWN and changes only the state and the pins: in particular
`movementStartTime_` — the timestamp `checkTimeout` measures the
movement timeout against — is left unchanged, as are the stabilization
timer, the target and the error message. -/
theorem C4_stabilizing_resume_keeps_timer (s : MC) (env : Env)
    (hst : s.state = MState.stabilizing)
    (hact : s.targetActive = true)
    (hout : isWithinTolerance s env = false) :
    (update s env).1.movementStart = s.movementStart ∧
    ((update s env).1.state = MState.movingUp ∨
      (update s env).1.state = MState.movingDown) ∧
    (update s env).1.state = determineDirection s env ∧
    (update s env).1.stabilizationStart = s.stabilizationStart ∧
    (update s env).1.targetActive = s.targetActive ∧
    (update s env).1.targetHeightCm = s.targetHeightCm ∧
    (update s env).1.targetTolMm = s.targetTolMm ∧
    (update s env).1.targetActivation = s.targetActivation ∧
    (update s env).1.targetSource = s.targetSource ∧
    (update s env).1.targetSourceId = s.targetSourceId ∧
    (update s env).1.lastError = s.lastError ∧
    (update s env).1.pins =
      applyWrites s.pins (setMotorPinsWrites (determineDirection s env)) := by
  have hmov : isMoving s = false := by
    simp [isMoving, hst]
  have htol : ¬(|diffMm s.targetHeightCm env.hcHeight| ≤ toInt16 s.targetTolMm) := by
    rw [isWithinTolerance, hact] at hout
    simpa using hout
  have hdir : determineDirection s env =
      if env.hcHeight < s.targetHeightCm then MState.movingUp
      else MState.movingDown := by
    rw [determineDirection, hact]
    simp only [Bool.not_true, Bool.false_eq_true, if_false]
    rw [if_neg htol]
  have hdirCases : determineDirection s env = MState.movingUp ∨
      determineDirection s env = MState.movingDown := by
    rw [hdir]
    split
    · exact Or.inl rfl
    · exact Or.inr rfl
  have hdirne : determineDirection s env ≠ MState.idle := by
    rcases hdirCases with h | h <;> rw [h] <;> intro hcon <;> exact MState.noConfusion hcon
  have hstne : ¬(s.state = determineDirection s env) := by
    rcases hdirCases with h | h <;> rw [h, hst] <;> intro hcon <;>
      exact MState.noConfusion hcon
  have hupd : update s env =
      setState s env (determineDirection s env)
        "Drifted outside tolerance, resuming movement" := by
    rw [update]
    rw [if_neg (by rw [hmov]; simp)]
    rw [if_neg (by rw [hmov]; simp)]
    rw [show (match s.state with
        | MState.idle => handleIdleState s env
        | MState.movingUp => handleMovingState s env
        | MState.movingDown => handleMovingState s env
        | MState.stabilizing => handleStabilizingState s env
        | MState.error => handleErrorState s) =
          handleStabilizingState s env by rw [hst]]
    rw [handleStabilizingState, hout]
    simp only [Bool.not_false, if_true]
    rw [if_pos hdirne]
  rw [hupd, setState, if_neg hstne]
  refine ⟨rfl, ?_, ?_, ?_, hact.symm ▸ rfl, rfl, rfl, rfl, rfl, rfl, ?_, rfl⟩
  · exact hdirCases
  · rfl
  · rcases hdirCases with h | h <;> rw [h] <;> rfl
  · rcases hdirCases with h | h <;> rw [h] <;> rfl

/-- Witness for C4 at a concrete drifted STABILIZING state: the movement
start stays 1000, the state resumes MOVING_UP. -/
theorem C4_stabilizing_resume_keeps_timer_witness :
    (update
      { state := MState.stabilizing, targetActive := true, targetHeightCm := 100
        targetTolMm := 10, targetActivation := 0, targetSource := TSource.manual
        targetSourceId := 0, lastError := "", movementStart := 1000
        stabilizationStart := 2000, pins := ⟨false, false⟩ }
      ⟨3000, true, 0, 50, defaultsConfig⟩).1.movementStart = 1000 ∧
    (update
      { state := MState.stabilizing, targetActive := true, targetHeightCm := 100
        targetTolMm := 10, targetActivation := 0, targetSource := TSource.manual
        targetSourceId := 0, lastError := "", movementStart := 1000
        stabilizationStart := 2000, pins := ⟨false, false⟩ }
      ⟨3000, true, 0, 50, defaultsConfig⟩).1.stabilizationStart = 2000 := by
  have h := C4_stabilizing_resume_keeps_timer
    { state := MState.stabilizing, targetActive := true, targetHeightCm := 100
      targetTolMm := 10, targetActivation := 0, targetSource := TSource.manual
      targetSourceId := 0, lastError := "", movementStart := 1000
      stabilizationStart := 2000, pins := ⟨false, false⟩ }
    ⟨3000, true, 0, 50, defaultsConfig⟩ rfl rfl (by decide)
  exact ⟨h.1, h.2.2.2.1⟩

/-! ## C9: setTargetHeight rejection -/

/-- Counterexample for C9: a rejected `setTargetHeight` call is not always
state-change-free — when the system is uncalibrated (and the height is in
range), the call returns false but sets `lastError_` to
"System not calibrated". -/
theorem C9_reject_counterexample :
    (setTargetHeight initMC ⟨0, true, 0, 60, defaultsConfig⟩ 75).1 = false ∧
    (setTargetHeight initMC ⟨0, true, 0, 60, defaultsConfig⟩ 75).2.1 ≠ initMC ∧
    (setTargetHeight initMC ⟨0, true, 0, 60, defaultsConfig⟩ 75).2.1.lastError =
      "System not calibrated" ∧
    initMC.lastError = "" := by
  refine ⟨by decide, by decide, by decide, rfl⟩

/-- C9 as amended: a rejected `setTargetHeight` changes no observable
state — movement state, target, motor pins — and performs no pin writes,
EXCEPT that rejection for an uncalibrated system overwrites
`lastError_` with "System not calibrated" (height-range rejection is
checked first and leaves everything unchanged; ERROR-state rejection
leaves everything unchanged). -/
theorem C9_reject_amended (s : MC) (env : Env) (height : ℕ) :
    (¬(isValidHeight env.cfg height = true) →
      setTargetHeight s env height = (false, s, [])) ∧
    (isValidHeight env.cfg height = true → ¬(isCalibrated env.cfg = true) →
      setTargetHeight s env height =
        (false, { s with lastError := "System not calibrated" }, [])) ∧
    (isValidHeight env.cfg height = true → isCalibrated env.cfg = true →
      s.state = MState.error →
      setTargetHeight s env height = (false, s, [])) := by
  refine ⟨?_, ?_, ?_⟩
  · intro h
    rw [setTargetHeight, if_pos (by simp [h])]
  · intro h1 h2
    rw [setTargetHeight, if_neg (by simp [h1]), if_pos (by simp [h2])]
  · intro h1 h2 h3
    rw [setTargetHeight, if_neg (by simp [h1]), if_neg (by simp [h2]), if_pos h3]

/-- Witness for C9 at a concrete ERROR-state rejection. -/
theorem C9_reject_amended_witness :
    setTargetHeight { initMC with state := MState.error }
      ⟨0, true, 0, 60, { defaultsConfig with calibrationConstant := 200 }⟩ 75 =
      (false, { initMC with state := MState.error }, []) := by
  have h := C9_reject_amended { initMC with state := MState.error }
    ⟨0, true, 0, 60, { defaultsConfig with calibrationConstant := 200 }⟩ 75
  exact h.2.2 (by decide) (by decide) rfl

/-! ## C3 supporting fact: the all-outliers fallback is unreachable -/

/-- Whenever at least `MIN_VALID_ZONES` zones pass validation, the outlier
filter keeps at least one zone (the median itself), so
`computeMultiZoneConsensus` always takes the mean branch: it returns
`is_reliable = true` with the mean of the survivors, and the
all-outliers fallback (which would return `consensus_distance_mm = 0`,
not the median) is dead code. -/
theorem consensus_reliable_of_min_zones (frame : List Zone)
    (h : 4 ≤ (validDistances frame).length) :
    (computeMultiZoneConsensus frame).is_reliable = true ∧
    (computeMultiZoneConsensus frame).consensus_distance_mm =
      computeMean (keptList (validDistances frame)
        (computeMedian (validDistances frame))) ∧
    keptList (validDistances frame) (computeMedian (validDistances frame)) ≠ [] := by
  have hne : validDistances frame ≠ [] := by
    intro hnil
    rw [hnil] at h
    simp at h
  have hkept := keptList_ne_nil (validDistances frame) hne
  have hkeptlen : (keptList (validDistances frame)
      (computeMedian (validDistances frame))).length ≠ 0 := by
    intro h0
    exact hkept (List.length_eq_zero.mp h0)
  rw [computeMultiZoneConsensus]
  simp only []
  rw [if_neg (by omega), if_neg hkeptlen]
  exact ⟨rfl, rfl, hkept⟩

/-! ## HeightController reading state (src/HeightController.cpp, update) -/

inductive Validity where
  | valid
  | invalid
  | stale
  deriving DecidableEq, Repr

structure HCState where
  timestamp : ℕ
  raw : ℕ
  filteredDistance : ℕ
  height : ℕ
  validity : Validity
  filter : Filter
  sensorInitialized : Bool
  lastConsensus : ConsensusResult
  deriving Repr, DecidableEq

/-- `HeightController::update`: `dataReady` models
`sensor_.isDataReady()`, `rangingOk` models `getRangingData` succeeding,
`cal` the calibration constant.  Note the timestamp is refreshed for
EVERY fresh frame — before the consensus reliability gate — so an
unreliable fresh frame yields `validity = INVALID` with reading age 0. -/
def hcUpdate (hc : HCState) (dataReady rangingOk : Bool) (frame : List Zone)
    (now : ℕ) (cal : ℤ) : HCState :=
  if !hc.sensorInitialized then { hc with validity := Validity.invalid }
  else if !dataReady then
    if wrap32sub now hc.timestamp > 1000 then { hc with validity := Validity.stale }
    else hc
  else if !rangingOk then { hc with validity := Validity.invalid }
  else
    let cons := computeMultiZoneConsensus frame
    if !cons.is_reliable then
      { hc with timestamp := now, lastConsensus := cons
                validity := Validity.invalid }
    else
      let f := addSample hc.filter cons.consensus_distance_mm
      let filtered := getAverage f
      { hc with timestamp := now, lastConsensus := cons
                raw := cons.consensus_distance_mm
                validity := Validity.valid, filter := f
                filteredDistance := filtered
                height := calculateHeight cal filtered }

def getReadingAge (hc : HCState) (now : ℕ) : ℕ := wrap32sub now hc.timestamp

/-- The `Env` the `MovementController` observes from a `HeightController`
state at time `now`. -/
def envOf (hc : HCState) (now : ℕ) (cfg : SysConfig) : Env :=
  { millis := now, hcValid := decide (hc.validity = Validity.valid)
    hcAge := getReadingAge hc now, hcHeight := hc.height, cfg := cfg }

/-! ## C2: sustained INVALID readings from fresh unreliable frames -/

/-- A calibrated configuration (calibration constant 200 cm). -/
def c2cfg : SysConfig := { defaultsConfig with calibrationConstant := 200 }

/-- A frame whose 16 zones all report status 0 (no target): every zone
fails validation, so the multi-zone consensus is unreliable and the
reading is INVALID on every cycle. -/
def c2badFrame : List Zone := List.replicate 16 ⟨0, 0⟩

/-- A healthy HeightController state: fresh VALID reading of 60 cm at
t = 1000 ms. -/
def c2hc0 : HCState :=
  { timestamp := 1000, raw := 850, filteredDistance := 850, height := 60
    validity := Validity.valid, filter := mkFilter 5, sensorInitialized := true
    lastConsensus := ⟨850, 16, 0, true⟩ }

/-- The controller after `setTargetHeight(100)` at t = 1000: MOVING_UP,
UP pin HIGH, movement started at 1000. -/
def c2mc0 : MC := (setTargetHeight initMC (envOf c2hc0 1000 c2cfg) 100).2.1

/-- One 200 ms sampling cycle in which the sensor delivers a fresh but
unreliable frame: `HeightController::update` then
`MovementController::update`. -/
def c2cycle (p : HCState × MC) (now : ℕ) : HCState × MC :=
  let hc := hcUpdate p.1 true true c2badFrame now 200
  (hc, (update p.2 (envOf hc now c2cfg)).1)

/-- Three consecutive cycles at t = 1200, 1400, 1600. -/
def c2run : HCState × MC := c2cycle (c2cycle (c2cycle (c2hc0, c2mc0) 1200) 1400) 1600

/-- C2 (code divergence): starting from MOVING_UP with the UP pin HIGH,
three sampling cycles in which every fresh frame is unreliable — so the
height reading is INVALID with age 0 on every cycle — leave the
controller still MOVING_UP with the UP pin HIGH and no error recorded:
`checkSensorValidity` accepts an INVALID-but-fresh reading, so `update`
never transitions to ERROR (contrary to the claim and FR-015; only the
30 s movement timeout would eventually stop the desk). -/
theorem C2_fresh_invalid_no_error :
    c2mc0.state = MState.movingUp ∧ c2mc0.pins = ⟨true, false⟩ ∧
    c2mc0.movementStart = 1000 ∧
    (c2run.1.validity = Validity.invalid ∧ getReadingAge c2run.1 1600 = 0) ∧
    checkSensorValidity (envOf c2run.1 1600 c2cfg) = true ∧
    c2run.2.state = MState.movingUp ∧ c2run.2.pins = ⟨true, false⟩ ∧
    c2run.2.lastError = "" := by
  refine ⟨by decide, by decide, by decide, ⟨by decide, by decide⟩, by decide,
    by decide, by decide, by decide⟩

end Desk
